import Mathlib

/-!
Shallow embedding of the tfsnippet local artifact cache (`CacheDir`,
`get_cache_root`, `set_cache_root`, `iter_files`).  The production module
`tfsnippet/utils/caching.py` is not present under `src/` (only its test file
`tests/utils/test_caching.py` is), so the operations below are modelled from
the specification's words (spec.md sections 3, 4, 6 and 7); each such
definition carries a doc comment starting with `Modelled from the spec:`.

Paths are strings joined with `/`; byte contents are modelled as strings; the
filesystem is a finite map from file paths to contents together with the set
of existing directories.  The HTTP transport capability is modelled after the
test's asset server (a name-to-content table with a success counter), and the
Extractor capability is an abstract function from an archive path to an
optional list of (relative entry path, content) pairs, `none` meaning the
extractor raised an error on that archive.
-/

/-- Process one character of a path, keeping only the text after the last
slash: the accumulator is reset whenever a `/` is seen. -/
def lastSegAux : List Char → List Char → List Char
  | [], acc => acc.reverse
  | c :: rest, acc => if c = '/' then lastSegAux rest [] else lastSegAux rest (c :: acc)

/-- Modelled from the spec: the last path segment of a URL or file path
(`url.split('/')[-1]`), used to derive default file names. -/
def lastSegment (s : String) : String := String.mk (lastSegAux s.data [])

/-- Whether `s` ends with `suffix`, computed on the underlying character
lists. -/
def strEndsWith (s suffix : String) : Bool :=
  List.isPrefixOf suffix.data.reverse s.data.reverse

/-- Remove the last `n` characters of `s`. -/
def stripEnd (s : String) (n : Nat) : String :=
  String.mk (s.data.take (s.data.length - n))

/-- Modelled from the spec: the archive base name with its compression-format
suffix stripped (`.zip`, `.tar.gz`, `.tgz`, `.tar.bz2`, and by extension
`.tar`); names with no recognised suffix are kept unchanged. -/
def stripArchiveSuffix (s : String) : String :=
  if strEndsWith s ".tar.gz" then stripEnd s 7
  else if strEndsWith s ".tar.bz2" then stripEnd s 8
  else if strEndsWith s ".tgz" then stripEnd s 4
  else if strEndsWith s ".tar" then stripEnd s 4
  else if strEndsWith s ".zip" then stripEnd s 4
  else s

/-- Whether a path begins with a slash, i.e. is absolute. -/
def startsWithSlash (s : String) : Bool :=
  match s.data with
  | [] => false
  | c :: _ => c = '/'

/-- Model of `os.path.join` for a single component: an absolute second
component replaces the first, otherwise the two are joined with `/`. -/
def joinPath (a b : String) : String :=
  if startsWithSlash b then b
  else if a = "" then b
  else if strEndsWith a "/" then a ++ b
  else a ++ "/" ++ b

/-- The parent directory of a path: everything before the last slash (empty
when there is no slash). -/
def parentDir (p : String) : String :=
  String.mk (((p.data.reverse.dropWhile (fun c => c ≠ '/')).drop 1).reverse)

/-- Fuel-bounded chain of a path and its parents, stopping at the empty
path. -/
def ancestorChainAux : Nat → String → List String
  | 0, _ => []
  | n + 1, p => if p = "" then [] else p :: ancestorChainAux n (parentDir p)

/-- The strict ancestor directories of a path, nearest first: for `"a/b/c"`
the list `["a/b", "a"]`. -/
def ancestors (p : String) : List String :=
  ancestorChainAux p.data.length (parentDir p)

/-- Modelled from the spec: the observable filesystem state — a finite map
from absolute file paths to contents, plus the set of directories. -/
structure FS where
  files : List (String × String)
  dirs : List String

/-- Model of `os.path.isfile`. -/
def fileExists (fs : FS) (p : String) : Bool :=
  fs.files.any (fun e => e.1 == p)

/-- Model of `os.path.isdir`. -/
def dirExists (fs : FS) (p : String) : Bool :=
  fs.dirs.any (fun d => d == p)

/-- Content of the file at `p`, when one exists. -/
def readFile (fs : FS) (p : String) : Option String :=
  (fs.files.find? (fun e => e.1 == p)).map (fun e => e.2)

/-- Create or overwrite the file at `p` with content `c`. -/
def writeFile (fs : FS) (p c : String) : FS :=
  { fs with files := (p, c) :: fs.files.filter (fun e => e.1 != p) }

/-- Remove the file at `p` when present. -/
def removeFile (fs : FS) (p : String) : FS :=
  { fs with files := fs.files.filter (fun e => e.1 != p) }

/-- Record a list of directories as existing. -/
def addDirs (fs : FS) (ds : List String) : FS :=
  { fs with dirs := ds ++ fs.dirs }

/-- Model of `os.makedirs`: create `d` and all its ancestors. -/
def makedirs (fs : FS) (d : String) : FS :=
  addDirs fs (d :: ancestors d)

/-- Whether `q` lies strictly inside the directory `root`. -/
def isUnder (root q : String) : Bool :=
  List.isPrefixOf (root ++ "/").data q.data

/-- Model of `shutil.rmtree`: remove the directory `root` and everything
below it. -/
def rmtree (fs : FS) (root : String) : FS :=
  { files := fs.files.filter (fun e => !(isUnder root e.1 || e.1 == root)),
    dirs := fs.dirs.filter (fun d => !(d == root || isUnder root d)) }

/-- Rewrite a path so that the subtree rooted at `root` appears rooted at
`new` instead; paths outside the subtree are unchanged. -/
def rebasePath (root new p : String) : String :=
  if p == root then new
  else if isUnder root p then new ++ "/" ++ String.mk (p.data.drop (root.data.length + 1))
  else p

/-- Model of `os.rename` on a file: the atomic promotion of a staged file. -/
def renameFile (fs : FS) (a b : String) : FS :=
  match readFile fs a with
  | some c => writeFile (removeFile fs a) b c
  | none => fs

/-- Model of `os.rename` on a directory: the atomic promotion of a staged
directory, carrying the whole subtree. -/
def renameDir (fs : FS) (a b : String) : FS :=
  { files := fs.files.map (fun e => (rebasePath a b e.1, e.2)),
    dirs := fs.dirs.map (rebasePath a b) }

/-- Modelled from the spec: `iter_files(root)` produces the file paths under
`root`, relative to `root`. -/
def iter_files (fs : FS) (root : String) : List String :=
  (fs.files.filter (fun e => isUnder root e.1)).map
    (fun e => String.mk (e.1.data.drop (root.data.length + 1)))

/-- The relative file paths under `root` paired with their contents (the
test's `summarize_dir`, minus sorting). -/
def filesUnder (fs : FS) (root : String) : List (String × String) :=
  (fs.files.filter (fun e => isUnder root e.1)).map
    (fun e => (String.mk (e.1.data.drop (root.data.length + 1)), e.2))

/-- Modelled from the spec: expansion of a leading `~` user-home shorthand. -/
def expanduser (home p : String) : String :=
  match p.data with
  | '~' :: rest => home ++ String.mk rest
  | _ => p

/-- Modelled from the spec (PathResolver, absent from src/): the effective
cache root — the programmatic override when active, else the
`TFSNIPPET_CACHE_ROOT` environment variable when set, else the default
`~/.tfsnippet/cache` expanded under the user home.  Total, hence it never
raises. -/
def get_cache_root (override env : Option String) (home : String) : String :=
  match override with
  | some v => v
  | none =>
    match env with
    | some e => e
    | none => expanduser home "~/.tfsnippet/cache"

/-- Modelled from the spec (PathResolver, absent from src/): `set_cache_root`
stores the user-home-expanded path as the new programmatic override. -/
def set_cache_root (home p : String) : Option String :=
  some (expanduser home p)

/-- The cache directory façade: a logical name, the cache root fixed at
construction time, and the canonical on-disk location. -/
structure CacheDir where
  name : String
  cache_root : String
  path : String

/-- Modelled from the spec (CacheDir construction, absent from src/): fails
with `ValueError` when `name` is empty; `cache_root` defaults to the resolved
cache root at construction time; `path = os.path.join(cache_root, name)`. -/
def CacheDir.make (resolvedRoot : String) (name : String) (cacheRoot : Option String) :
    Except String CacheDir :=
  if name = "" then Except.error "`name` is required"
  else
    Except.ok
      { name := name,
        cache_root := match cacheRoot with | some r => r | none => resolvedRoot,
        path :=
          joinPath (match cacheRoot with | some r => r | none => resolvedRoot) name }

/-- The test's asset HTTP server: a table of named assets, and a counter of
successful fetches (tests/utils/test_caching.py, AssetsHTTPRequestHandler). -/
structure Server where
  assets : List (String × String)
  counter : Nat

/-- One GET against the asset server: a present asset is served and bumps the
counter; a missing one yields a 404 and leaves the counter unchanged. -/
def serverGet (srv : Server) (name : String) : Server × Option String :=
  match srv.assets.find? (fun a => a.1 == name) with
  | some a => ({ srv with counter := srv.counter + 1 }, some a.2)
  | none => (srv, none)

/-- Sentinel suffix appended to a target file path during download. -/
def downloadingSuffix : String := "._downloading_"

/-- Sentinel suffix appended to a target directory path during extraction. -/
def extractingSuffix : String := "._extracting_"

/-- The target file path of a `download` call: `self.path/filename`, with
`filename` derived from the URL's last path segment when not given. -/
def downloadTarget (cd : CacheDir) (url : String) (filename : Option String) : String :=
  joinPath cd.path (match filename with | some f => f | none => lastSegment url)

/-- Outcome of a `download` call: the filesystem and server afterwards, and
the returned path or the propagated error. -/
structure DownloadResult where
  fs : FS
  server : Server
  result : Except String String

/-- Modelled from the spec (CacheDir.download and AtomicStagingIO file
staging, absent from src/): when the target file exists and no sentinel
exists, short-circuit and perform no network request; otherwise create the
parent directories, fetch the resource, stream it into the sentinel file and
rename it to the target on success; on a transport failure remove the
sentinel if present and propagate the error.  `show_progress` only governs
incremental progress rendering, which is outside this model. -/
def CacheDir.download (cd : CacheDir) (fs : FS) (srv : Server) (url : String)
    (filename : Option String) (show_progress : Bool) : DownloadResult :=
  let target := downloadTarget cd url filename
  let sentinel := target ++ downloadingSuffix
  if fileExists fs target && !fileExists fs sentinel then
    { fs := fs, server := srv, result := Except.ok target }
  else
    let fs1 := addDirs fs (ancestors target)
    match serverGet srv (lastSegment url) with
    | (srv1, some content) =>
      { fs := renameFile (writeFile fs1 sentinel content) sentinel target,
        server := srv1, result := Except.ok target }
    | (srv1, none) =>
      { fs := removeFile fs1 sentinel, server := srv1,
        result := Except.error ("HTTP 404 Not Found: " ++ url) }

/-- The target directory of an `extract_file` call: `self.path/extract_dir`,
with `extract_dir` derived from the archive base name with its compression
suffix stripped when not given. -/
def extractTarget (cd : CacheDir) (archive_file : String) (extract_dir : Option String) :
    String :=
  joinPath cd.path
    (match extract_dir with
     | some d => d
     | none => stripArchiveSuffix (lastSegment archive_file))

/-- Outcome of an `extract_file` call: the filesystem afterwards, the number
of times the Extractor capability was opened during the call, the text
written to the progress sink during the call, and the returned path or the
propagated error. -/
structure ExtractResult where
  fs : FS
  openDelta : Nat
  log : String
  result : Except String String

/-- Materialise archive entries as files under the staging directory `base`,
creating subdirectories as needed. -/
def materializeEntries (fs : FS) (base : String) (entries : List (String × String)) : FS :=
  entries.foldl
    (fun acc e =>
      writeFile (addDirs acc (ancestors (base ++ "/" ++ e.1))) (base ++ "/" ++ e.1) e.2)
    (makedirs fs base)

/-- Modelled from the spec (CacheDir.extract_file and AtomicStagingIO
directory staging, absent from src/): when the target directory exists and no
sentinel directory exists, short-circuit without opening the Extractor and
without writing to the progress sink; otherwise write the
`Extracting <archive> ... ` header, open the Extractor on the archive,
materialise its entries under the sentinel directory and rename it to the
target on success (logging `done`); when the Extractor fails, remove the
sentinel tree, log `error` and propagate.  `ext` is the Extractor capability;
`show_progress` only suppresses incremental progress, which is outside this
model, never the header/done/error line. -/
def CacheDir.extract_file (cd : CacheDir) (fs : FS)
    (ext : String → Option (List (String × String)))
    (archive_file : String) (extract_dir : Option String) (show_progress : Bool) :
    ExtractResult :=
  let target := extractTarget cd archive_file extract_dir
  let sentinel := target ++ extractingSuffix
  if dirExists fs target && !dirExists fs sentinel then
    { fs := fs, openDelta := 0, log := "", result := Except.ok target }
  else
    let fs1 := addDirs fs (ancestors target)
    match ext archive_file with
    | some entries =>
      { fs := renameDir (materializeEntries fs1 sentinel entries) sentinel target,
        openDelta := 1,
        log := ("Extracting " ++ archive_file ++ " ... ") ++ "done\n",
        result := Except.ok target }
    | none =>
      { fs := rmtree fs1 sentinel,
        openDelta := 1,
        log := ("Extracting " ++ archive_file ++ " ... ") ++ "error\n",
        result := Except.error ("failed to extract archive " ++ archive_file) }

/-- Modelled from the spec (CacheDir.purge_all, absent from src/): recursively
delete the entire `self.path` tree when it exists, do nothing when it does
not; total, hence it never raises. -/
def CacheDir.purge_all (cd : CacheDir) (fs : FS) : FS :=
  if dirExists fs cd.path then rmtree fs cd.path else fs

/-! Helper lemmas about the filesystem model. -/

lemma length_dropWhile_le (p : Char → Bool) (l : List Char) :
    (l.dropWhile p).length ≤ l.length := by
  induction l with
  | nil => simp
  | cons a t ih =>
    rw [List.dropWhile_cons]
    by_cases h : p a = true
    · simp only [h, if_true]
      exact Nat.le_trans ih (Nat.le_succ _)
    · simp [h]

lemma string_eq_empty_iff (s : String) : s = "" ↔ s.data = [] := by
  constructor
  · intro h; rw [h]
  · intro h; apply String.ext; rw [h]

lemma parentDir_length_lt (p : String) (h : p ≠ "") :
    (parentDir p).data.length < p.data.length := by
  have hne : p.data ≠ [] := fun hd => h ((string_eq_empty_iff p).mpr hd)
  have hpos : 0 < p.data.length := List.length_pos.mpr hne
  have h1 : (parentDir p).data.length
      = ((p.data.reverse.dropWhile (fun c => c ≠ '/')).drop 1).length := by
    simp [parentDir]
  rw [h1, List.length_drop]
  have h2 : (p.data.reverse.dropWhile (fun c => c ≠ '/')).length ≤ p.data.length := by
    have := length_dropWhile_le (fun c => c ≠ '/') p.data.reverse
    simpa using this
  omega

lemma mem_ancestorChainAux_length {q : String} :
    ∀ (n : Nat) (p : String), q ∈ ancestorChainAux n p → q.data.length ≤ p.data.length := by
  intro n
  induction n with
  | zero => intro p hq; simp [ancestorChainAux] at hq
  | succ m ih =>
    intro p hq
    rw [ancestorChainAux] at hq
    by_cases hp : p = ""
    · simp [hp] at hq
    · rw [if_neg hp] at hq
      rcases List.mem_cons.mp hq with h | h
      · rw [h]
      · exact Nat.le_trans (ih (parentDir p) h)
          (Nat.le_of_lt (parentDir_length_lt p hp))

lemma self_not_mem_ancestors (p : String) : p ∉ ancestors p := by
  intro hmem
  by_cases hp : p = ""
  · rw [hp] at hmem
    exact absurd hmem (by decide)
  · have h1 := mem_ancestorChainAux_length p.data.length (parentDir p) hmem
    have h2 := parentDir_length_lt p hp
    omega

lemma string_append_ne_self (s t : String) (ht : t ≠ "") : s ++ t ≠ s := by
  intro h
  apply ht
  have hd : s.data ++ t.data = s.data ++ [] := by
    rw [← String.data_append, h, List.append_nil]
  exact (string_eq_empty_iff t).mpr (List.append_cancel_left hd)

lemma downloadingSuffix_ne_empty : downloadingSuffix ≠ "" := by decide

lemma extractingSuffix_ne_empty : extractingSuffix ≠ "" := by decide

lemma fileExists_iff (fs : FS) (p : String) :
    fileExists fs p = true ↔ ∃ c, (p, c) ∈ fs.files := by
  simp only [fileExists, List.any_eq_true, beq_iff_eq]
  constructor
  · rintro ⟨e, he, hp⟩
    exact ⟨e.2, by rwa [← hp, Prod.mk.eta]⟩
  · rintro ⟨c, hc⟩
    exact ⟨(p, c), hc, rfl⟩

lemma dirExists_iff (fs : FS) (p : String) : dirExists fs p = true ↔ p ∈ fs.dirs := by
  simp [dirExists]

lemma fileExists_eq_false_iff (fs : FS) (p : String) :
    fileExists fs p = false ↔ ∀ c, (p, c) ∉ fs.files := by
  constructor
  · intro hf c hc
    rw [(fileExists_iff fs p).mpr ⟨c, hc⟩] at hf
    exact Bool.noConfusion hf
  · intro hall
    cases hfe : fileExists fs p with
    | false => rfl
    | true =>
      obtain ⟨c, hc⟩ := (fileExists_iff fs p).mp hfe
      exact absurd hc (hall c)

lemma dirExists_eq_false_iff (fs : FS) (p : String) :
    dirExists fs p = false ↔ p ∉ fs.dirs := by
  constructor
  · intro hf hm
    rw [(dirExists_iff fs p).mpr hm] at hf
    exact Bool.noConfusion hf
  · intro hnm
    cases hfe : dirExists fs p with
    | false => rfl
    | true => exact absurd ((dirExists_iff fs p).mp hfe) hnm

lemma fileExists_writeFile_self (fs : FS) (p c : String) :
    fileExists (writeFile fs p c) p = true := by
  simp [fileExists, writeFile]

lemma fileExists_writeFile_of_ne (fs : FS) (p c q : String) (h : q ≠ p) :
    fileExists (writeFile fs p c) q = fileExists fs q := by
  cases hq : fileExists fs q with
  | true =>
    obtain ⟨c2, hc2⟩ := (fileExists_iff fs q).mp hq
    apply (fileExists_iff _ q).mpr
    refine ⟨c2, List.mem_cons_of_mem _ ?_⟩
    exact List.mem_filter.mpr ⟨hc2, by simp [h]⟩
  | false =>
    apply (fileExists_eq_false_iff _ q).mpr
    intro c2 hc2
    rcases List.mem_cons.mp hc2 with heq | hmem
    · exact h (congrArg Prod.fst heq)
    · exact (fileExists_eq_false_iff fs q).mp hq c2 (List.mem_filter.mp hmem).1

lemma fileExists_removeFile_self (fs : FS) (p : String) :
    fileExists (removeFile fs p) p = false := by
  apply (fileExists_eq_false_iff _ p).mpr
  intro c hc
  have := (List.mem_filter.mp hc).2
  simp at this

lemma fileExists_removeFile_of_ne (fs : FS) (p q : String) (h : q ≠ p) :
    fileExists (removeFile fs p) q = fileExists fs q := by
  cases hq : fileExists fs q with
  | true =>
    obtain ⟨c2, hc2⟩ := (fileExists_iff fs q).mp hq
    apply (fileExists_iff _ q).mpr
    exact ⟨c2, List.mem_filter.mpr ⟨hc2, by simp [h]⟩⟩
  | false =>
    apply (fileExists_eq_false_iff _ q).mpr
    intro c2 hc2
    exact (fileExists_eq_false_iff fs q).mp hq c2 (List.mem_filter.mp hc2).1

lemma fileExists_addDirs (fs : FS) (ds : List String) (q : String) :
    fileExists (addDirs fs ds) q = fileExists fs q := rfl

lemma readFile_writeFile_self (fs : FS) (p c : String) :
    readFile (writeFile fs p c) p = some c := by
  simp [readFile, writeFile]

lemma renameFile_writeFile (fs : FS) (a b c : String) :
    renameFile (writeFile fs a c) a b = writeFile (removeFile (writeFile fs a c) a) b c := by
  unfold renameFile
  rw [readFile_writeFile_self]

lemma download_ok_post (cd : CacheDir) (fs : FS) (srv : Server) (url : String)
    (fn : Option String) (sp : Bool) (p : String)
    (h : (cd.download fs srv url fn sp).result = Except.ok p) :
    p = downloadTarget cd url fn ∧
    fileExists (cd.download fs srv url fn sp).fs p = true ∧
    fileExists (cd.download fs srv url fn sp).fs (p ++ downloadingSuffix) = false := by
  by_cases hc : (fileExists fs (downloadTarget cd url fn)
      && !fileExists fs (downloadTarget cd url fn ++ downloadingSuffix)) = true
  · have hr : cd.download fs srv url fn sp =
        { fs := fs, server := srv, result := Except.ok (downloadTarget cd url fn) } := by
      simp only [CacheDir.download]
      rw [if_pos hc]
    rw [hr] at h ⊢
    obtain rfl : downloadTarget cd url fn = p := by simpa using h
    have h12 := hc
    rw [Bool.and_eq_true] at h12
    obtain ⟨h1, h2⟩ := h12
    rw [Bool.not_eq_true'] at h2
    exact ⟨rfl, h1, h2⟩
  · rcases hsg : serverGet srv (lastSegment url) with ⟨srv1, co⟩
    cases co with
    | some content =>
      have hr : cd.download fs srv url fn sp =
          { fs := renameFile
                    (writeFile (addDirs fs (ancestors (downloadTarget cd url fn)))
                      (downloadTarget cd url fn ++ downloadingSuffix) content)
                    (downloadTarget cd url fn ++ downloadingSuffix)
                    (downloadTarget cd url fn),
            server := srv1, result := Except.ok (downloadTarget cd url fn) } := by
        simp only [CacheDir.download]
        rw [if_neg hc, hsg]
      rw [hr] at h ⊢
      obtain rfl : downloadTarget cd url fn = p := by simpa using h
      refine ⟨rfl, ?_, ?_⟩
      · rw [renameFile_writeFile]
        exact fileExists_writeFile_self ..
      · rw [renameFile_writeFile,
          fileExists_writeFile_of_ne _ _ _ _
            (string_append_ne_self _ _ downloadingSuffix_ne_empty)]
        exact fileExists_removeFile_self ..
    | none =>
      have hr : cd.download fs srv url fn sp =
          { fs := removeFile (addDirs fs (ancestors (downloadTarget cd url fn)))
                    (downloadTarget cd url fn ++ downloadingSuffix),
            server := srv1,
            result := Except.error ("HTTP 404 Not Found: " ++ url) } := by
        simp only [CacheDir.download]
        rw [if_neg hc, hsg]
      rw [hr] at h
      simp at h

/-! Concrete fixtures mirroring the test setup in tests/utils/test_caching.py. -/

/-- The cache dir used by the tests: name `sub-dir` under a temporary root. -/
def cd0 : CacheDir :=
  { name := "sub-dir", cache_root := "/tmp/cache", path := "/tmp/cache/sub-dir" }

/-- An initially empty filesystem. -/
def fs0 : FS := { files := [], dirs := [] }

/-- An asset server holding `payload.zip`, with its fetch counter at zero. -/
def srv0 : Server :=
  { assets := [("payload.zip", "PK-payload-zip-bytes")], counter := 0 }

/-- A server holding no assets at all: every request is a 404. -/
def srvEmpty : Server := { assets := [], counter := 0 }

/-- The payload URL used by the download tests. -/
def url0 : String := "http://127.0.0.1:8000/payload.zip"

/-- A URL whose asset does not exist on the server. -/
def url404 : String := "http://127.0.0.1:8000/not-exist.zip"

/-- C1: when the derived target file already exists complete under the
CacheDir — in particular right after a first successful `download` of the
same URL with the default filename — a second `download` call performs no
network fetch (the server counter is unchanged, indeed the whole server state
is), returns the same absolute path as the first call, and leaves the
filesystem (hence the file content) unchanged. -/
theorem download_cache_hit_idempotent (cd : CacheDir) (fs : FS) (srv : Server)
    (url : String) (sp : Bool) (p : String)
    (h : (cd.download fs srv url none sp).result = Except.ok p) :
    (cd.download (cd.download fs srv url none sp).fs
        (cd.download fs srv url none sp).server url none sp).result = Except.ok p ∧
    (cd.download (cd.download fs srv url none sp).fs
        (cd.download fs srv url none sp).server url none sp).server.counter
      = (cd.download fs srv url none sp).server.counter ∧
    (cd.download (cd.download fs srv url none sp).fs
        (cd.download fs srv url none sp).server url none sp).fs
      = (cd.download fs srv url none sp).fs := by
  obtain ⟨hp, hex, hsent⟩ := download_ok_post cd fs srv url none sp p h
  subst hp
  revert hex hsent
  generalize cd.download fs srv url none sp = r1
  intro hex hsent
  have hc : (fileExists r1.fs (downloadTarget cd url none)
      && !fileExists r1.fs (downloadTarget cd url none ++ downloadingSuffix)) = true := by
    rw [hex, hsent]
    rfl
  have hr : cd.download r1.fs r1.server url none sp =
      { fs := r1.fs, server := r1.server,
        result := Except.ok (downloadTarget cd url none) } := by
    simp only [CacheDir.download]
    rw [if_pos hc]
  rw [hr]
  exact ⟨rfl, rfl, rfl⟩

/-- Witness for C1 at the test's concrete input: a first download of
`payload.zip` succeeds, and the second call returns the same path with the
server and filesystem untouched. -/
theorem download_cache_hit_idempotent_witness :
    (cd0.download (cd0.download fs0 srv0 url0 none true).fs
        (cd0.download fs0 srv0 url0 none true).server url0 none true).result
      = Except.ok "/tmp/cache/sub-dir/payload.zip" ∧
    (cd0.download (cd0.download fs0 srv0 url0 none true).fs
        (cd0.download fs0 srv0 url0 none true).server url0 none true).server.counter
      = (cd0.download fs0 srv0 url0 none true).server.counter ∧
    (cd0.download (cd0.download fs0 srv0 url0 none true).fs
        (cd0.download fs0 srv0 url0 none true).server url0 none true).fs
      = (cd0.download fs0 srv0 url0 none true).fs :=
  download_cache_hit_idempotent cd0 fs0 srv0 url0 true
    "/tmp/cache/sub-dir/payload.zip" (by rfl)

/-- C2: a `download` call that fails with a transport error (modelled by the
server answering 404) propagates the error, and afterwards neither the target
file nor the sentinel file (target path plus `._downloading_`) exists.  The
hypothesis `hinv` is the spec's Staged Artifact invariant: the target and its
sentinel are never both present beforehand. -/
theorem download_failure_no_artifact (cd : CacheDir) (fs : FS) (srv : Server)
    (url : String) (fn : Option String) (sp : Bool) (msg : String)
    (hinv : fileExists fs (downloadTarget cd url fn) = false ∨
            fileExists fs (downloadTarget cd url fn ++ downloadingSuffix) = false)
    (h : (cd.download fs srv url fn sp).result = Except.error msg) :
    fileExists (cd.download fs srv url fn sp).fs (downloadTarget cd url fn) = false ∧
    fileExists (cd.download fs srv url fn sp).fs
        (downloadTarget cd url fn ++ downloadingSuffix) = false := by
  by_cases hc : (fileExists fs (downloadTarget cd url fn)
      && !fileExists fs (downloadTarget cd url fn ++ downloadingSuffix)) = true
  · exfalso
    have hr : cd.download fs srv url fn sp =
        { fs := fs, server := srv, result := Except.ok (downloadTarget cd url fn) } := by
      simp only [CacheDir.download]
      rw [if_pos hc]
    rw [hr] at h
    simp at h
  · rcases hsg : serverGet srv (lastSegment url) with ⟨srv1, co⟩
    cases co with
    | some content =>
      exfalso
      have hr : cd.download fs srv url fn sp =
          { fs := renameFile
                    (writeFile (addDirs fs (ancestors (downloadTarget cd url fn)))
                      (downloadTarget cd url fn ++ downloadingSuffix) content)
                    (downloadTarget cd url fn ++ downloadingSuffix)
                    (downloadTarget cd url fn),
            server := srv1, result := Except.ok (downloadTarget cd url fn) } := by
        simp only [CacheDir.download]
        rw [if_neg hc, hsg]
      rw [hr] at h
      simp at h
    | none =>
      have hr : cd.download fs srv url fn sp =
          { fs := removeFile (addDirs fs (ancestors (downloadTarget cd url fn)))
                    (downloadTarget cd url fn ++ downloadingSuffix),
            server := srv1,
            result := Except.error ("HTTP 404 Not Found: " ++ url) } := by
        simp only [CacheDir.download]
        rw [if_neg hc, hsg]
      rw [hr]
      constructor
      · rw [fileExists_removeFile_of_ne _ _ _
          (fun he => string_append_ne_self _ _ downloadingSuffix_ne_empty he.symm)]
        rw [fileExists_addDirs]
        rcases hinv with h1 | h2
        · exact h1
        · cases hfe : fileExists fs (downloadTarget cd url fn) with
          | false => rfl
          | true => exact absurd (by rw [hfe, h2]; rfl) hc
      · exact fileExists_removeFile_self ..

/-- Witness for C2 at the test's concrete input: downloading `not-exist.zip`
from a server without that asset fails, and neither the target file nor the
sentinel exists afterwards. -/
theorem download_failure_no_artifact_witness :
    fileExists (cd0.download fs0 srvEmpty url404 none true).fs
        (downloadTarget cd0 url404 none) = false ∧
    fileExists (cd0.download fs0 srvEmpty url404 none true).fs
        (downloadTarget cd0 url404 none ++ downloadingSuffix) = false :=
  download_failure_no_artifact cd0 fs0 srvEmpty url404 none true
    ("HTTP 404 Not Found: " ++ url404) (Or.inl (by rfl)) (by rfl)

/-! Extraction fixtures and theorems. -/

/-- The payload archive content used by the extraction tests
(tests/utils/test_caching.py, PAYLOAD_CONTENT). -/
def payloadEntries : List (String × String) :=
  [("a/1.txt", "a/1.txt"), ("b/2.txt", "b/2.txt"), ("c.txt", "c.txt")]

/-- An Extractor capability that opens any of the four payload archives to
the payload entries, and fails on every other path. -/
def payloadExt : String → Option (List (String × String)) := fun p =>
  if p == "/assets/payload.tar.gz" || p == "/assets/payload.tgz"
      || p == "/assets/payload.tar.bz2" || p == "/assets/payload.zip" then
    some payloadEntries
  else
    none

/-- An Extractor capability that fails on every archive, the model of an
invalid or corrupt archive file. -/
def extNone : String → Option (List (String × String)) := fun _ => none

/-- C3: an `extract_file` call on an archive the Extractor cannot open, with
no cached copy of the derived target, propagates the extraction error;
afterwards neither the target directory nor the sentinel directory (target
path plus `._extracting_`) exists, and the progress sink received exactly the
line `Extracting <archive_path> ... error` followed by a newline. -/
theorem extract_failure_no_artifact (cd : CacheDir) (fs : FS)
    (ext : String → Option (List (String × String))) (archive : String)
    (ed : Option String) (sp : Bool)
    (hmiss : dirExists fs (extractTarget cd archive ed) = false)
    (hext : ext archive = none) :
    (cd.extract_file fs ext archive ed sp).result
        = Except.error ("failed to extract archive " ++ archive) ∧
    dirExists (cd.extract_file fs ext archive ed sp).fs
        (extractTarget cd archive ed) = false ∧
    dirExists (cd.extract_file fs ext archive ed sp).fs
        (extractTarget cd archive ed ++ extractingSuffix) = false ∧
    (cd.extract_file fs ext archive ed sp).log
        = "Extracting " ++ archive ++ " ... error\n" := by
  have hcn : ¬((dirExists fs (extractTarget cd archive ed)
      && !dirExists fs (extractTarget cd archive ed ++ extractingSuffix)) = true) := by
    rw [hmiss]
    simp
  have hr : cd.extract_file fs ext archive ed sp =
      { fs := rmtree (addDirs fs (ancestors (extractTarget cd archive ed)))
                (extractTarget cd archive ed ++ extractingSuffix),
        openDelta := 1,
        log := ("Extracting " ++ archive ++ " ... ") ++ "error\n",
        result := Except.error ("failed to extract archive " ++ archive) } := by
    simp only [CacheDir.extract_file]
    rw [if_neg hcn, hext]
  rw [hr]
  refine ⟨rfl, ?_, ?_, ?_⟩
  · apply (dirExists_eq_false_iff ..).mpr
    intro hm
    have h1 := List.mem_filter.mp hm
    rcases List.mem_append.mp h1.1 with ha | hb
    · exact self_not_mem_ancestors _ ha
    · exact (dirExists_eq_false_iff fs _).mp hmiss hb
  · apply (dirExists_eq_false_iff ..).mpr
    intro hm
    have h2 := (List.mem_filter.mp hm).2
    simp at h2
  · rw [String.append_assoc]
    rfl

/-- Witness for C3 at the test's concrete input: extracting the invalid
archive `invalid.txt` fails, leaves no target or sentinel directory, and logs
exactly the error line. -/
theorem extract_failure_no_artifact_witness :
    (cd0.extract_file fs0 extNone "/tmp/cache/sub-dir/invalid.txt" none true).result
        = Except.error ("failed to extract archive " ++ "/tmp/cache/sub-dir/invalid.txt") ∧
    dirExists (cd0.extract_file fs0 extNone "/tmp/cache/sub-dir/invalid.txt" none true).fs
        (extractTarget cd0 "/tmp/cache/sub-dir/invalid.txt" none) = false ∧
    dirExists (cd0.extract_file fs0 extNone "/tmp/cache/sub-dir/invalid.txt" none true).fs
        (extractTarget cd0 "/tmp/cache/sub-dir/invalid.txt" none ++ extractingSuffix) = false ∧
    (cd0.extract_file fs0 extNone "/tmp/cache/sub-dir/invalid.txt" none true).log
        = "Extracting " ++ "/tmp/cache/sub-dir/invalid.txt" ++ " ... error\n" :=
  extract_failure_no_artifact cd0 fs0 extNone "/tmp/cache/sub-dir/invalid.txt" none true
    (by rfl) (by rfl)

/-- C8: every `extract_file` call that actually performs extraction (i.e.
does not short-circuit on a complete cached target) writes to the progress
sink the line `Extracting <archive_path> ... ` followed by `done` or `error`
and a newline, for any value of `show_progress` — in particular for
`show_progress = false`, which suppresses only incremental progress. -/
theorem extract_minimum_log_contract (cd : CacheDir) (fs : FS)
    (ext : String → Option (List (String × String))) (archive : String)
    (ed : Option String) (sp : Bool)
    (hmiss : dirExists fs (extractTarget cd archive ed) = false ∨
             dirExists fs (extractTarget cd archive ed ++ extractingSuffix) = true) :
    (cd.extract_file fs ext archive ed sp).log
        = "Extracting " ++ archive ++ " ... done\n" ∨
    (cd.extract_file fs ext archive ed sp).log
        = "Extracting " ++ archive ++ " ... error\n" := by
  have hcn : ¬((dirExists fs (extractTarget cd archive ed)
      && !dirExists fs (extractTarget cd archive ed ++ extractingSuffix)) = true) := by
    rcases hmiss with h1 | h2
    · rw [h1]; simp
    · rw [h2]; simp
  cases hext : ext archive with
  | some entries =>
    left
    have hr : (cd.extract_file fs ext archive ed sp).log
        = ("Extracting " ++ archive ++ " ... ") ++ "done\n" := by
      simp only [CacheDir.extract_file]
      rw [if_neg hcn, hext]
    rw [hr, String.append_assoc]
    rfl
  | none =>
    right
    have hr : (cd.extract_file fs ext archive ed sp).log
        = ("Extracting " ++ archive ++ " ... ") ++ "error\n" := by
      simp only [CacheDir.extract_file]
      rw [if_neg hcn, hext]
    rw [hr, String.append_assoc]
    rfl

/-- Witness for C8 at the test's concrete input: with `show_progress = false`
the extraction of `payload.tar.bz2` into a fresh directory still writes the
start/done line. -/
theorem extract_minimum_log_contract_witness :
    (cd0.extract_file fs0 payloadExt "/assets/payload.tar.bz2"
        (some "sub-dir/payload2") false).log
      = "Extracting " ++ "/assets/payload.tar.bz2" ++ " ... done\n" ∨
    (cd0.extract_file fs0 payloadExt "/assets/payload.tar.bz2"
        (some "sub-dir/payload2") false).log
      = "Extracting " ++ "/assets/payload.tar.bz2" ++ " ... error\n" :=
  extract_minimum_log_contract cd0 fs0 payloadExt "/assets/payload.tar.bz2"
    (some "sub-dir/payload2") false (Or.inl (by rfl))

/-- C10: when the derived extract directory (archive base name with
compression suffixes stripped, joined under the cache dir) already exists and
no sentinel directory exists, `extract_file` returns that existing path, the
Extractor capability is never opened (`openDelta = 0`), nothing is written to
the progress sink, and the filesystem is unchanged — for any archive path
with that derived directory, not just the one originally extracted. -/
theorem extract_cache_hit_skips_extractor (cd : CacheDir) (fs : FS)
    (ext : String → Option (List (String × String))) (archive : String) (sp : Bool)
    (hdir : dirExists fs (extractTarget cd archive none) = true)
    (hsent : dirExists fs (extractTarget cd archive none ++ extractingSuffix) = false) :
    (cd.extract_file fs ext archive none sp).result
        = Except.ok (extractTarget cd archive none) ∧
    (cd.extract_file fs ext archive none sp).openDelta = 0 ∧
    (cd.extract_file fs ext archive none sp).log = "" ∧
    (cd.extract_file fs ext archive none sp).fs = fs := by
  have hc : (dirExists fs (extractTarget cd archive none)
      && !dirExists fs (extractTarget cd archive none ++ extractingSuffix)) = true := by
    rw [hdir, hsent]
    rfl
  have hr : cd.extract_file fs ext archive none sp =
      { fs := fs, openDelta := 0, log := "",
        result := Except.ok (extractTarget cd archive none) } := by
    simp only [CacheDir.extract_file]
    rw [if_pos hc]
  rw [hr]
  exact ⟨rfl, rfl, rfl, rfl⟩

/-- Witness for C10 at the test's concrete input: after extracting
`payload.tar.gz`, a call on `payload.tgz` — a different archive path with the
same derived directory `payload` — returns the cached path without opening
the Extractor and without logging. -/
theorem extract_cache_hit_skips_extractor_witness :
    (cd0.extract_file (cd0.extract_file fs0 payloadExt "/assets/payload.tar.gz" none true).fs
        payloadExt "/assets/payload.tgz" none true).result
      = Except.ok (extractTarget cd0 "/assets/payload.tgz" none) ∧
    (cd0.extract_file (cd0.extract_file fs0 payloadExt "/assets/payload.tar.gz" none true).fs
        payloadExt "/assets/payload.tgz" none true).openDelta = 0 ∧
    (cd0.extract_file (cd0.extract_file fs0 payloadExt "/assets/payload.tar.gz" none true).fs
        payloadExt "/assets/payload.tgz" none true).log = "" ∧
    (cd0.extract_file (cd0.extract_file fs0 payloadExt "/assets/payload.tar.gz" none true).fs
        payloadExt "/assets/payload.tgz" none true).fs
      = (cd0.extract_file fs0 payloadExt "/assets/payload.tar.gz" none true).fs :=
  extract_cache_hit_skips_extractor cd0
    (cd0.extract_file fs0 payloadExt "/assets/payload.tar.gz" none true).fs
    payloadExt "/assets/payload.tgz" true (by rfl) (by rfl)

/-- C7: extracting an archive whose entries are exactly the payload content
`{a/1.txt, b/2.txt, c.txt}` materialises under the returned target directory
exactly those relative file paths with exactly those contents, for each of
the four supported compression formats (`tar.gz`, `tgz`, `tar.bz2`, `zip`);
in every case the derived target is the cache path joined with `payload`. -/
theorem extract_roundtrip_all_formats :
    ((cd0.extract_file fs0 payloadExt "/assets/payload.tar.gz" none true).result
        = Except.ok "/tmp/cache/sub-dir/payload" ∧
     (filesUnder (cd0.extract_file fs0 payloadExt "/assets/payload.tar.gz" none true).fs
        "/tmp/cache/sub-dir/payload").isPerm payloadEntries = true) ∧
    ((cd0.extract_file fs0 payloadExt "/assets/payload.tgz" none true).result
        = Except.ok "/tmp/cache/sub-dir/payload" ∧
     (filesUnder (cd0.extract_file fs0 payloadExt "/assets/payload.tgz" none true).fs
        "/tmp/cache/sub-dir/payload").isPerm payloadEntries = true) ∧
    ((cd0.extract_file fs0 payloadExt "/assets/payload.tar.bz2" none true).result
        = Except.ok "/tmp/cache/sub-dir/payload" ∧
     (filesUnder (cd0.extract_file fs0 payloadExt "/assets/payload.tar.bz2" none true).fs
        "/tmp/cache/sub-dir/payload").isPerm payloadEntries = true) ∧
    ((cd0.extract_file fs0 payloadExt "/assets/payload.zip" none true).result
        = Except.ok "/tmp/cache/sub-dir/payload" ∧
     (filesUnder (cd0.extract_file fs0 payloadExt "/assets/payload.zip" none true).fs
        "/tmp/cache/sub-dir/payload").isPerm payloadEntries = true) := by
  refine ⟨⟨?_, ?_⟩, ⟨?_, ?_⟩, ⟨?_, ?_⟩, ⟨?_, ?_⟩⟩ <;> rfl

/-- C4: for every non-empty `name` (path separators included), construction
succeeds and yields `path = os.path.join(cache_root, name)`; when
`cache_root` is not given, `cache_root` is the resolved process-wide cache
root passed at construction time (`os.path.abspath(get_cache_root())`). -/
theorem cachedir_path_invariant (resolvedRoot name : String)
    (cacheRoot : Option String) (h : name ≠ "") :
    ∃ cd, CacheDir.make resolvedRoot name cacheRoot = Except.ok cd ∧
      cd.name = name ∧
      cd.path = joinPath cd.cache_root name ∧
      (cacheRoot = none → cd.cache_root = resolvedRoot) := by
  have hr : CacheDir.make resolvedRoot name cacheRoot = Except.ok
      { name := name,
        cache_root := match cacheRoot with | some r => r | none => resolvedRoot,
        path :=
          joinPath (match cacheRoot with | some r => r | none => resolvedRoot) name } := by
    unfold CacheDir.make
    rw [if_neg h]
  refine ⟨_, hr, rfl, rfl, fun hnone => ?_⟩
  rw [hnone]

/-- Witness for C4 at the test's concrete input: the nested name
`sub-dir/sub-sub-dir` with no explicit cache root. -/
theorem cachedir_path_invariant_witness :
    ∃ cd, CacheDir.make "/home/user/.tfsnippet/cache" "sub-dir/sub-sub-dir" none
        = Except.ok cd ∧
      cd.name = "sub-dir/sub-sub-dir" ∧
      cd.path = joinPath cd.cache_root "sub-dir/sub-sub-dir" ∧
      (none = (none : Option String) → cd.cache_root = "/home/user/.tfsnippet/cache") :=
  cachedir_path_invariant "/home/user/.tfsnippet/cache" "sub-dir/sub-sub-dir" none
    (by decide)

/-- C5: constructing a CacheDir with an empty name always fails with the
`ValueError` message mentioning that `name` is required, constructing no
CacheDir value; construction with any non-empty name does not fail. -/
theorem cachedir_empty_name_rejected (resolvedRoot : String)
    (cacheRoot : Option String) (name : String) :
    (name = "" →
      CacheDir.make resolvedRoot name cacheRoot = Except.error "`name` is required") ∧
    (name ≠ "" → ∃ cd, CacheDir.make resolvedRoot name cacheRoot = Except.ok cd) := by
  constructor
  · intro h
    subst h
    rfl
  · intro h
    have hr : CacheDir.make resolvedRoot name cacheRoot = Except.ok
        { name := name,
          cache_root := match cacheRoot with | some r => r | none => resolvedRoot,
          path :=
            joinPath (match cacheRoot with | some r => r | none => resolvedRoot)
              name } := by
      unfold CacheDir.make
      rw [if_neg h]
    exact ⟨_, hr⟩

/-- Witness for C5 at concrete inputs: the empty name is rejected with the
exact message, and the name `sub-dir` is accepted. -/
theorem cachedir_empty_name_rejected_witness :
    CacheDir.make "/home/user/.tfsnippet/cache" "" none
        = Except.error "`name` is required" ∧
    ∃ cd, CacheDir.make "/home/user/.tfsnippet/cache" "sub-dir" none = Except.ok cd :=
  ⟨(cachedir_empty_name_rejected "/home/user/.tfsnippet/cache" none "").1 rfl,
   (cachedir_empty_name_rejected "/home/user/.tfsnippet/cache" none "sub-dir").2
     (by decide)⟩

/-- C6: cache-root resolution precedence — the programmatic override wins
when active; otherwise the `TFSNIPPET_CACHE_ROOT` environment variable when
set; otherwise the user-home-expanded default `~/.tfsnippet/cache`; the
resolver is a total function (never raises), and once the override is cleared
(`override = none`) the result reverts to the lower-precedence source. -/
theorem get_cache_root_precedence (v e home : String) :
    get_cache_root (some v) (some e) home = v ∧
    get_cache_root (some v) none home = v ∧
    get_cache_root none (some e) home = e ∧
    get_cache_root none none home = home ++ "/.tfsnippet/cache" := by
  refine ⟨rfl, rfl, rfl, ?_⟩
  rfl

/-- C9: `purge_all` recursively deletes the whole CacheDir tree — when the
path exists, afterwards it does not, and neither does any file or directory
strictly under it; when the path does not exist, `purge_all` leaves the
filesystem exactly unchanged (and, being total, never raises). -/
theorem purge_all_removes_tree (cd : CacheDir) (fs : FS) :
    (dirExists fs cd.path = true → dirExists (cd.purge_all fs) cd.path = false) ∧
    (dirExists fs cd.path = true → ∀ q, isUnder cd.path q = true →
      fileExists (cd.purge_all fs) q = false ∧ dirExists (cd.purge_all fs) q = false) ∧
    (dirExists fs cd.path = false → cd.purge_all fs = fs) := by
  by_cases hd : dirExists fs cd.path = true
  · have hr : cd.purge_all fs = rmtree fs cd.path := by
      unfold CacheDir.purge_all
      rw [if_pos hd]
    refine ⟨fun _ => ?_, fun _ q hq => ⟨?_, ?_⟩, fun hc => absurd hd (by rw [hc]; simp)⟩
    · rw [hr]
      apply (dirExists_eq_false_iff ..).mpr
      intro hm
      have h2 := (List.mem_filter.mp hm).2
      simp at h2
    · rw [hr]
      apply (fileExists_eq_false_iff ..).mpr
      intro c hc
      have h2 := (List.mem_filter.mp hc).2
      rw [Bool.not_eq_true', Bool.or_eq_false_iff] at h2
      exact Bool.noConfusion (hq ▸ h2.1)
    · rw [hr]
      apply (dirExists_eq_false_iff ..).mpr
      intro hm
      have h2 := (List.mem_filter.mp hm).2
      rw [Bool.not_eq_true', Bool.or_eq_false_iff] at h2
      exact Bool.noConfusion (hq ▸ h2.2)
  · have hd' : dirExists fs cd.path = false := by
      cases hde : dirExists fs cd.path with
      | false => rfl
      | true => exact absurd hde hd
    have hr : cd.purge_all fs = fs := by
      unfold CacheDir.purge_all
      rw [if_neg hd]
    exact ⟨fun hc => absurd hc hd, fun hc => absurd hc hd, fun _ => hr⟩

/-- Witness for C9 at concrete inputs: purging a populated cache dir removes
its path and the file under it; purging when the path does not exist is a
no-op. -/
theorem purge_all_removes_tree_witness :
    dirExists (cd0.purge_all
        { files := [("/tmp/cache/sub-dir/x.txt", "x")],
          dirs := ["/tmp/cache/sub-dir", "/tmp/cache"] }) cd0.path = false ∧
    (fileExists (cd0.purge_all
        { files := [("/tmp/cache/sub-dir/x.txt", "x")],
          dirs := ["/tmp/cache/sub-dir", "/tmp/cache"] }) "/tmp/cache/sub-dir/x.txt" = false ∧
     dirExists (cd0.purge_all
        { files := [("/tmp/cache/sub-dir/x.txt", "x")],
          dirs := ["/tmp/cache/sub-dir", "/tmp/cache"] }) "/tmp/cache/sub-dir/x.txt" = false) ∧
    cd0.purge_all fs0 = fs0 :=
  ⟨(purge_all_removes_tree cd0
      { files := [("/tmp/cache/sub-dir/x.txt", "x")],
        dirs := ["/tmp/cache/sub-dir", "/tmp/cache"] }).1 (by rfl),
   (purge_all_removes_tree cd0
      { files := [("/tmp/cache/sub-dir/x.txt", "x")],
        dirs := ["/tmp/cache/sub-dir", "/tmp/cache"] }).2.1 (by rfl)
     "/tmp/cache/sub-dir/x.txt" (by rfl),
   (purge_all_removes_tree cd0 fs0).2.2 (by rfl)⟩
